import Mathlib

/-!
# Verification of the sdm630 Modbus engine (modbus.go)

A shallow embedding of the `sdm630` package's Modbus engine:

* the register decoders (`RTU32ToFloat64`, `RTU16ToFloat64`,
  `rtuScaledInt32ToFloat64`, `rtuScaledInt16ToFloat64`);
* the query executor `ModbusEngine.query` (slave-id update, validation,
  function-code dispatch);
* the polling loop `ModbusEngine.Transform` (device-switch settle sleep,
  bounded retry with backoff, OK/ERROR control snips);
* the bus scanner `ModbusEngine.Scan` (address sweep 1..247, first-match
  producer probing, scoped timeout override).

Modelling conventions:

* Go byte slices become `List Nat` with each entry reduced mod 256 where the
  code reads it as a byte.
* `float32`/`float64` values are modelled exactly: every `float32` widens
  exactly to `float64`, so a decoded reading is a `FloatVal` - either a
  finite rational (the exact value of the IEEE-754 bit pattern), an
  infinity, or NaN.  Arithmetic performed by the code on these values
  (division by a scale factor) is modelled as exact rational arithmetic;
  in every claim checked here the operands and results are such that the
  exact value and the IEEE-rounded value agree.
* The transport (goburrow/modbus client) is an abstract `Bus`: a pair of
  functions from (handler timeout, global request index, slave id, opcode,
  register count) to `Except Unit (List Nat)`.  Indexing by the global
  request counter lets the outcome of the same request differ between retry
  attempts.
* Wall-clock time is a `Nat` of milliseconds advanced only by the engine's
  explicit sleeps; the polling loop records an `Event` trace (settle sleeps,
  query attempts, retry backoffs) with timestamps.
* Channels become lists: the loop is run on a finite prefix of the inbound
  request stream and returns the lists of forwarded snips and control snips
  in emission order.
* `log.Fatalf` (process abort) is modelled by an `Option`-valued run
  returning `none` (for the loop) or a distinguished `QueryOut.fatal`
  outcome (for one query).
-/

namespace Sdm630

/-- Go constant: `MaxRetryCount = 5`. -/
def MaxRetryCount : Nat := 5

/-- Go constant: `ReadInputReg = 4`. -/
def ReadInputReg : Nat := 4

/-- Go constant: `ReadHoldingReg = 3`. -/
def ReadHoldingReg : Nat := 3

/-! ## Register decoders (RTUTransform) -/

/-- The exact value of a `float32`/`float64`: a finite rational, a signed
infinity, or NaN.  Finite values are exact; every finite `float32` is also a
finite `float64` with the same rational value, so Go's widening conversion
`float64(f)` is the identity here. -/
inductive FloatVal
  | finite (q : ℚ)
  | inf (neg : Bool)
  | nan
deriving DecidableEq

/-- Model of `math.Float32frombits`: interpret a 32-bit pattern under IEEE-754
binary32.  Exponent field 255 yields an infinity or NaN; exponent field 0 is
subnormal (value `frac * 2 ^ (-149)`); otherwise the value is
`(2^23 + frac) * 2 ^ (expF - 150)`.  Powers are kept in `Nat` (with a
rational division for negative exponents) so the function evaluates by
kernel reduction. -/
def float32frombits (bits : Nat) : FloatVal :=
  let sign := bits / 2 ^ 31 % 2
  let expF := bits / 2 ^ 23 % 2 ^ 8
  let frac := bits % 2 ^ 23
  if expF = 255 then
    if frac = 0 then FloatVal.inf (sign == 1) else FloatVal.nan
  else
    let m : Nat := if expF = 0 then frac else 2 ^ 23 + frac
    let e : Nat := if expF = 0 then 1 else expF
    let mag : ℚ :=
      if 150 ≤ e then ((m * 2 ^ (e - 150) : Nat) : ℚ)
      else (m : ℚ) / ((2 ^ (150 - e) : Nat) : ℚ)
    if sign = 1 then FloatVal.finite (-mag) else FloatVal.finite mag

/-- Model of `binary.BigEndian.Uint32`: big-endian read of the first 4 bytes.
Go panics when the slice is shorter than 4; the panic is modelled as
`none`.  Each entry is reduced mod 256 because Go reads bytes. -/
def bigEndianUint32 (b : List Nat) : Option Nat :=
  match b with
  | b0 :: b1 :: b2 :: b3 :: _ =>
      some (b0 % 256 * 2 ^ 24 + b1 % 256 * 2 ^ 16 + b2 % 256 * 2 ^ 8 + b3 % 256)
  | _ => none

/-- Model of `binary.BigEndian.Uint16`: big-endian read of the first 2 bytes
(`none` models the out-of-range panic). -/
def bigEndianUint16 (b : List Nat) : Option Nat :=
  match b with
  | b0 :: b1 :: _ => some (b0 % 256 * 2 ^ 8 + b1 % 256)
  | _ => none

/-- Go `float64` division `a / b` on exact values: division by zero gives
an infinity (or NaN for `0/0`), otherwise the exact quotient.  (The dividend
here always comes from an unsigned integer, so no negative-zero cases
arise.) -/
def floatDiv (a b : ℚ) : FloatVal :=
  if b = 0 then (if a = 0 then FloatVal.nan else FloatVal.inf (decide (a < 0)))
  else FloatVal.finite (a / b)

/-- Decoder `RTU32ToFloat64`: big-endian `uint32` reinterpreted as a `float32` bit
pattern, widened to `float64`. -/
def RTU32ToFloat64 (b : List Nat) : Option FloatVal :=
  (bigEndianUint32 b).map float32frombits

/-- Decoder `RTU16ToFloat64`: big-endian `uint16`, converted to `float64`
(exact, the integer is below `2^16`). -/
def RTU16ToFloat64 (b : List Nat) : Option FloatVal :=
  (bigEndianUint16 b).map (fun u => FloatVal.finite (u : ℚ))

/-- Decoder `rtuScaledInt32ToFloat64`: big-endian `uint32` as `float64`, divided by
the scalar. -/
def rtuScaledInt32ToFloat64 (b : List Nat) (scalar : ℚ) : Option FloatVal :=
  (bigEndianUint32 b).map (fun u => floatDiv (u : ℚ) scalar)

/-- Decoder `rtuScaledInt16ToFloat64`: big-endian `uint16` as `float64`, divided by
the scalar. -/
def rtuScaledInt16ToFloat64 (b : List Nat) (scalar : ℚ) : Option FloatVal :=
  (bigEndianUint16 b).map (fun u => floatDiv (u : ℚ) scalar)

/-- Factory `MakeRTU32ScaledIntToFloat64 scalar`: the closure over the scalar. -/
def MakeRTU32ScaledIntToFloat64 (scalar : ℚ) : List Nat → Option FloatVal :=
  fun b => rtuScaledInt32ToFloat64 b scalar

/-- Factory `MakeRTU16ScaledIntToFloat64 scalar`: the closure over the scalar. -/
def MakeRTU16ScaledIntToFloat64 (scalar : ℚ) : List Nat → Option FloatVal :=
  fun b => rtuScaledInt16ToFloat64 b scalar

/-! ## Data model: snips, handler, status, transport -/

/-- Model of `QuerySnip` (defined in the package alongside modbus.go): one logical
register read.  `Transform` is the per-snip decode (an `RTUTransform` as
modelled above); `Value`/`ReadTimestamp` form the mutable result slot. -/
structure QuerySnip where
  DeviceId : Nat
  FuncCode : Nat
  OpCode : Nat
  ReadLen : Nat
  Transform : List Nat → Option FloatVal
  Value : Option FloatVal := none
  ReadTimestamp : Nat := 0

/-- Classification `CONTROLSNIP_OK` / `CONTROLSNIP_ERROR`. -/
inductive ControlSnipType
  | CONTROLSNIP_OK
  | CONTROLSNIP_ERROR
deriving DecidableEq

/-- Model of `ControlSnip`: out-of-band per-device status signal.  (The Go field is
named `Type`, a reserved word here, hence `Typ`.) -/
structure ControlSnip where
  Typ : ControlSnipType
  Message : String
  DeviceId : Nat
deriving DecidableEq

/-- The OK control snip emitted on a successful query (modbus.go:154). -/
def okControlSnip (dev : Nat) : ControlSnip :=
  { Typ := ControlSnipType.CONTROLSNIP_OK, Message := "OK", DeviceId := dev }

/-- The ERROR control snip emitted after retry exhaustion (modbus.go:171). -/
def errorControlSnip (dev : Nat) : ControlSnip :=
  { Typ := ControlSnipType.CONTROLSNIP_ERROR,
    Message := "Device " ++ toString dev ++ " did not respond.",
    DeviceId := dev }

/-- The mutable part of `modbus.RTUClientHandler` the engine touches:
the slave id updated before every query and the per-call timeout. -/
structure Handler where
  SlaveId : Nat
  Timeout : Nat
deriving DecidableEq

/-- Model of the `Status` counters touched by the engine: `IncreaseModbusRequestCounter`
and `IncreaseModbusReconnectCounter`. -/
structure Status where
  Requests : Nat
  Reconnects : Nat
deriving DecidableEq

/-- The abstract transport (goburrow/modbus client).  Each primitive maps
(handler timeout, global request index, slave id, opcode, register count) to
a payload or a transport error.  The request index is the value of the
request counter when the call is issued, so outcomes may differ between
retry attempts. -/
structure Bus where
  readInput : Nat → Nat → Nat → Nat → Nat → Except Unit (List Nat)
  readHolding : Nat → Nat → Nat → Nat → Nat → Except Unit (List Nat)

/-- Outcome of one `query` call: `fatal` models `log.Fatalf` (process
abort), `ok` a payload, `err` a transport error returned to the caller. -/
inductive QueryOut
  | fatal
  | ok (bytes : List Nat)
  | err
deriving DecidableEq

/-- Whether a query outcome is a success. -/
def QueryOut.isOk : QueryOut → Bool
  | QueryOut.ok _ => true
  | _ => false

/-- Lift a transport result into a query outcome. -/
def ofExcept : Except Unit (List Nat) → QueryOut
  | Except.ok b => QueryOut.ok b
  | Except.error _ => QueryOut.err

/-! ## Query executor (`ModbusEngine.query`) -/

/-- Model of `ModbusEngine.query`: bump the request counter, point the handler at the
snip's device, validate (`ReadLen <= 0` and unknown function codes are
`log.Fatalf`), and dispatch by function code.  Returns the updated handler,
the updated status, and the outcome.  Verbose logging is display-only and
not modelled. -/
def query (bus : Bus) (h : Handler) (st : Status) (snip : QuerySnip) :
    Handler × Status × QueryOut :=
  let st' : Status := { st with Requests := st.Requests + 1 }
  let h' : Handler := { h with SlaveId := snip.DeviceId }
  (h', st',
    if snip.ReadLen = 0 then QueryOut.fatal
    else if snip.FuncCode = ReadInputReg then
      ofExcept (bus.readInput h'.Timeout st.Requests h'.SlaveId snip.OpCode snip.ReadLen)
    else if snip.FuncCode = ReadHoldingReg then
      ofExcept (bus.readHolding h'.Timeout st.Requests h'.SlaveId snip.OpCode snip.ReadLen)
    else QueryOut.fatal)

/-- The outcome component of `query` as a function of the handler timeout
and the request-counter value only (the other state does not influence
it). -/
def attemptOutcome (bus : Bus) (tmo : Nat) (snip : QuerySnip) (idx : Nat) : QueryOut :=
  (query bus { SlaveId := 0, Timeout := tmo } { Requests := idx, Reconnects := 0 } snip).2.2

/-- A snip whose `query` never hits a `log.Fatalf` branch: positive length
and a known function code. -/
def ValidSnip (s : QuerySnip) : Prop :=
  s.ReadLen ≠ 0 ∧ (s.FuncCode = ReadInputReg ∨ s.FuncCode = ReadHoldingReg)

/-! ## Polling loop (`ModbusEngine.Transform`) -/

/-- Timed observable events of the polling loop: the 100 ms device-switch
settle sleep, a query attempt, and the 100 ms retry backoff sleep.  Each
carries the clock value (ms) at which it starts. -/
inductive Event
  | settle (t : Nat)
  | attempt (t : Nat) (dev : Nat)
  | backoff (t : Nat)
deriving DecidableEq

/-- The start times of the query attempts in a trace, in order. -/
def attemptTimes (evs : List Event) : List Nat :=
  evs.filterMap fun e =>
    match e with
    | Event.attempt t _ => some t
    | _ => none

/-- The trace of `n` consecutive failed attempts starting at `clock`:
attempt, backoff sleep, attempt 100 ms later, ... -/
def failEvents (dev : Nat) (clock : Nat) : Nat → List Event
  | 0 => []
  | n + 1 => Event.attempt clock dev :: Event.backoff clock :: failEvents dev (clock + 100) n

/-- Result of the retry loop for one snip. -/
structure RetryOut where
  handler : Handler
  status : Status
  clock : Nat
  events : List Event
  outputs : List QuerySnip
  controls : List ControlSnip

/-- The retry loop of `ModbusEngine.Transform` (modbus.go:145-176) for one
snip, with `fuel` remaining attempts (started with `MaxRetryCount`).  On
success: fill `Value` via the snip's transform, stamp the read timestamp,
forward the snip, emit the OK control snip, and stop (the `goto`).  On
error: bump the reconnect counter, sleep 100 ms, retry.  Fuel exhausted:
emit the ERROR control snip, forward nothing.  `none` models `log.Fatalf`
inside `query`. -/
def runRetries (bus : Bus) (snip : QuerySnip) :
    Nat → Handler → Status → Nat → Option RetryOut
  | 0, h, st, clock =>
      some { handler := h, status := st, clock := clock, events := [],
             outputs := [], controls := [errorControlSnip snip.DeviceId] }
  | n + 1, h, st, clock =>
      match query bus h st snip with
      | (_, _, QueryOut.fatal) => none
      | (h', st', QueryOut.ok bytes) =>
          some { handler := h', status := st', clock := clock,
                 events := [Event.attempt clock snip.DeviceId],
                 outputs := [{ snip with
                                Value := snip.Transform bytes,
                                ReadTimestamp := clock }],
                 controls := [okControlSnip snip.DeviceId] }
      | (h', st', QueryOut.err) =>
          match runRetries bus snip n h'
              { st' with Reconnects := st'.Reconnects + 1 } (clock + 100) with
          | none => none
          | some r =>
              some { r with
                     events := Event.attempt clock snip.DeviceId ::
                               Event.backoff clock :: r.events }

/-- The loop-carried state of `ModbusEngine.Transform`: the handler, the
`previousDeviceId` local, the status counters, and the clock. -/
structure LoopState where
  handler : Handler
  previousDeviceId : Nat
  status : Status
  clock : Nat

/-- Result of running the polling loop on a finite prefix of the inbound
channel. -/
structure LoopOut where
  state : LoopState
  events : List Event
  outputs : List QuerySnip
  controls : List ControlSnip

/-- One iteration of `ModbusEngine.Transform` (modbus.go:136-176): dequeue a
snip, sleep 100 ms if the device changed, remember the device, then run the
retry loop. -/
def processOne (bus : Bus) (ls : LoopState) (snip : QuerySnip) : Option LoopOut :=
  let settleEvs : List Event :=
    if ls.previousDeviceId ≠ snip.DeviceId then [Event.settle ls.clock] else []
  let clock1 : Nat :=
    if ls.previousDeviceId ≠ snip.DeviceId then ls.clock + 100 else ls.clock
  match runRetries bus snip MaxRetryCount ls.handler ls.status clock1 with
  | none => none
  | some r =>
      some { state := { handler := r.handler, previousDeviceId := snip.DeviceId,
                        status := r.status, clock := r.clock },
             events := settleEvs ++ r.events,
             outputs := r.outputs,
             controls := r.controls }

/-- Model of `ModbusEngine.Transform` run on a finite prefix of the inbound request
channel: the infinite `for` loop unrolled over a list of dequeued snips,
concatenating the traces and the two outbound streams in emission order. -/
def Transform (bus : Bus) (ls : LoopState) : List QuerySnip → Option LoopOut
  | [] => some { state := ls, events := [], outputs := [], controls := [] }
  | snip :: rest =>
      match processOne bus ls snip with
      | none => none
      | some o =>
          match Transform bus o.state rest with
          | none => none
          | some o2 =>
              some { state := o2.state,
                     events := o.events ++ o2.events,
                     outputs := o.outputs ++ o2.outputs,
                     controls := o.controls ++ o2.controls }

/-- The loop state at entry to `Transform`: `var previousDeviceId uint8` is
zero-valued, i.e. outside the valid address range 1-247; the clock origin is
arbitrary and taken as 0. -/
def initialLoopState (h : Handler) (st : Status) : LoopState :=
  { handler := h, previousDeviceId := 0, status := st, clock := 0 }

/-! ## Bus scanner (`ModbusEngine.Scan`) -/

/-- The `Producer` capability as the scanner uses it: a probe snip for a
given address and a meter-type label.  The concrete producers
(`NewSDMProducer` etc.) live outside modbus.go; the scanner is handed the
ordered list. -/
structure Producer where
  Probe : Nat → QuerySnip
  GetMeterType : String

/-- A producer as the spec's external-collaborator contract describes it:
`probe(deviceAddress) → QuerySnip` aimed at that address, well-formed for
dispatch. -/
def ProducerWF (p : Producer) : Prop :=
  ∀ a : Nat, (p.Probe a).DeviceId = a ∧ ValidSnip (p.Probe a)

/-- A transport whose outcomes do not depend on the request index (a
"steady" simulated bus, as in the spec's scan example). -/
def BusStable (bus : Bus) : Prop :=
  ∀ tmo i j s o l, bus.readInput tmo i s o l = bus.readInput tmo j s o l ∧
    bus.readHolding tmo i s o l = bus.readHolding tmo j s o l

/-- Whether a producer's probe of address `a` succeeds on a steady bus under
the scan timeout of 50 ms (the request index is irrelevant by stability and
is taken as 0). -/
def probeOk (bus : Bus) (p : Producer) (a : Nat) : Bool :=
  (attemptOutcome bus 50 (p.Probe a) 0).isOk

/-- The inner producer loop of `Scan` (modbus.go:204-221) at one address:
try each producer in order; the first successful probe yields that
producer's meter type and ends the loop (`continue SCAN`).  Returns the
threaded handler and status, the list of issued probes as
(slave id, handler timeout at the call) pairs, and the meter type if any
probe succeeded.  `none` models `log.Fatalf` inside `query`. -/
def probeLoop (bus : Bus) (a : Nat) :
    List Producer → Handler → Status →
    Option (Handler × Status × List (Nat × Nat) × Option String)
  | [], h, st => some (h, st, [], none)
  | p :: rest, h, st =>
      match query bus h st (p.Probe a) with
      | (_, _, QueryOut.fatal) => none
      | (h', st', QueryOut.ok _) =>
          some (h', st', [((p.Probe a).DeviceId, h.Timeout)], some p.GetMeterType)
      | (h', st', QueryOut.err) =>
          match probeLoop bus a rest h' st' with
          | none => none
          | some (hf, stf, probes, r) =>
              some (hf, stf, ((p.Probe a).DeviceId, h.Timeout) :: probes, r)

/-- The address sweep of `Scan` (modbus.go:200-224) over a list of candidate
addresses: for each address run the producer loop; a successful probe
appends a `(address, meter type)` entry to the device list, otherwise the
address is logged as "n/a".  The 40 ms inter-address sleep has no observable
effect in this model and is not recorded. -/
def scanLoop (bus : Bus) (producers : List Producer) :
    List Nat → Handler → Status →
    Option (Handler × Status × List (Nat × Nat) × List (Nat × String) × List Nat)
  | [], h, st => some (h, st, [], [], [])
  | a :: rest, h, st =>
      match probeLoop bus a producers h st with
      | none => none
      | some (h', st', probes, res) =>
          match scanLoop bus producers rest h' st' with
          | none => none
          | some (hf, stf, probesR, devs, nas) =>
              match res with
              | some label =>
                  some (hf, stf, probes ++ probesR, (a, label) :: devs, nas)
              | none =>
                  some (hf, stf, probes ++ probesR, devs, a :: nas)

/-- What one `Scan` run reports and leaves behind: final handler and status,
every probe issued (slave id and the timeout in force), the device list
(address, meter type) and the addresses reported "n/a". -/
structure ScanReport where
  handler : Handler
  status : Status
  probes : List (Nat × Nat)
  deviceList : List (Nat × String)
  naList : List Nat

/-- Model of `ModbusEngine.Scan` (modbus.go:180-236): save the handler timeout, set
it to 50 ms, sweep slave addresses 1..247 with the producer list, then
restore the saved timeout.  The summary log output is display-only; the
report carries the same information. -/
def Scan (bus : Bus) (producers : List Producer) (h : Handler) (st : Status) :
    Option ScanReport :=
  let oldtimeout := h.Timeout
  match scanLoop bus producers (List.range' 1 247) { h with Timeout := 50 } st with
  | none => none
  | some (h2, st2, probes, devs, nas) =>
      some { handler := { h2 with Timeout := oldtimeout }, status := st2,
             probes := probes, deviceList := devs, naList := nas }


/-! ## Concrete instances used by the witnesses -/

/-- A transport on which every read succeeds with a fixed 4-byte payload. -/
def busAlwaysOk : Bus :=
  { readInput := fun _ _ _ _ _ => Except.ok [0, 0, 0, 0],
    readHolding := fun _ _ _ _ _ => Except.ok [0, 0, 0, 0] }

/-- A transport on which every read fails. -/
def busAlwaysErr : Bus :=
  { readInput := fun _ _ _ _ _ => Except.error (),
    readHolding := fun _ _ _ _ _ => Except.error () }

/-- A transport failing exactly the first request overall and succeeding
afterwards. -/
def busSecondTry : Bus :=
  { readInput := fun _ idx _ _ _ =>
      if idx = 0 then Except.error () else Except.ok [64, 80, 0, 0],
    readHolding := fun _ idx _ _ _ =>
      if idx = 0 then Except.error () else Except.ok [64, 80, 0, 0] }

/-- A steady simulated bus on which only slave addresses 5 and 42 respond. -/
def busScanTwo : Bus :=
  { readInput := fun _ _ s _ _ =>
      if s = 5 ∨ s = 42 then Except.ok [0, 0] else Except.error (),
    readHolding := fun _ _ _ _ _ => Except.error () }

/-- A read-input-registers request for device 1. -/
def snipW : QuerySnip :=
  { DeviceId := 1, FuncCode := 4, OpCode := 0, ReadLen := 2,
    Transform := RTU32ToFloat64 }

/-- A read-input-registers request for device 2. -/
def snipW2 : QuerySnip :=
  { DeviceId := 2, FuncCode := 4, OpCode := 0, ReadLen := 2,
    Transform := RTU32ToFloat64 }

/-- A malformed request: zero register count. -/
def snipLen0 : QuerySnip :=
  { DeviceId := 1, FuncCode := 4, OpCode := 0, ReadLen := 0,
    Transform := RTU32ToFloat64 }

/-- A malformed request: unknown function code 9. -/
def snipFC9 : QuerySnip :=
  { DeviceId := 1, FuncCode := 9, OpCode := 0, ReadLen := 2,
    Transform := RTU32ToFloat64 }

/-- A read-holding-registers request for device 1. -/
def snipH : QuerySnip :=
  { DeviceId := 1, FuncCode := 3, OpCode := 0, ReadLen := 2,
    Transform := RTU16ToFloat64 }

/-- A probe producer addressing the probed device with a one-register
input read. -/
def producerW : Producer :=
  { Probe := fun a =>
      { DeviceId := a, FuncCode := 4, OpCode := 0, ReadLen := 1,
        Transform := RTU16ToFloat64 },
    GetMeterType := "SDM" }

/-- A handler with the default 300 ms timeout. -/
def handlerW : Handler := { SlaveId := 0, Timeout := 300 }

/-- Fresh status counters. -/
def statusW : Status := { Requests := 0, Reconnects := 0 }

end Sdm630

namespace Sdm630

lemma query_eq (bus : Bus) (h : Handler) (st : Status) (snip : QuerySnip) :
    query bus h st snip =
      ({ h with SlaveId := snip.DeviceId }, { st with Requests := st.Requests + 1 },
        attemptOutcome bus h.Timeout snip st.Requests) := rfl

lemma runRetries_succ (bus : Bus) (snip : QuerySnip) (n : Nat) (h : Handler)
    (st : Status) (clock : Nat) :
    runRetries bus snip (n + 1) h st clock =
      match attemptOutcome bus h.Timeout snip st.Requests with
      | QueryOut.fatal => none
      | QueryOut.ok bytes =>
          some { handler := { h with SlaveId := snip.DeviceId },
                 status := { st with Requests := st.Requests + 1 },
                 clock := clock,
                 events := [Event.attempt clock snip.DeviceId],
                 outputs := [{ snip with
                                Value := snip.Transform bytes,
                                ReadTimestamp := clock }],
                 controls := [okControlSnip snip.DeviceId] }
      | QueryOut.err =>
          match runRetries bus snip n { h with SlaveId := snip.DeviceId }
              { Requests := st.Requests + 1, Reconnects := st.Reconnects + 1 }
              (clock + 100) with
          | none => none
          | some r =>
              some { r with
                     events := Event.attempt clock snip.DeviceId ::
                               Event.backoff clock :: r.events } := by
  cases hq : attemptOutcome bus h.Timeout snip st.Requests <;>
    simp only [runRetries, query_eq, hq]


lemma runRetries_success (bus : Bus) (snip : QuerySnip) (bytes : List Nat) :
    ∀ (j : Nat) (n : Nat) (h : Handler) (st : Status) (clock : Nat), j < n →
    (∀ i, i < j → attemptOutcome bus h.Timeout snip (st.Requests + i) = QueryOut.err) →
    attemptOutcome bus h.Timeout snip (st.Requests + j) = QueryOut.ok bytes →
    runRetries bus snip n h st clock =
      some { handler := { h with SlaveId := snip.DeviceId },
             status := { Requests := st.Requests + j + 1,
                         Reconnects := st.Reconnects + j },
             clock := clock + 100 * j,
             events := failEvents snip.DeviceId clock j ++
                       [Event.attempt (clock + 100 * j) snip.DeviceId],
             outputs := [{ snip with
                            Value := snip.Transform bytes,
                            ReadTimestamp := clock + 100 * j }],
             controls := [okControlSnip snip.DeviceId] } := by
  intro j
  induction j with
  | zero =>
      intro n h st clock hn hf hs
      cases n with
      | zero => omega
      | succ m =>
          have hs0 : attemptOutcome bus h.Timeout snip st.Requests = QueryOut.ok bytes := by
            simpa using hs
          rw [runRetries_succ, hs0]
          simp [failEvents]
  | succ j ih =>
      intro n h st clock hn hf hs
      cases n with
      | zero => omega
      | succ m =>
          have hf0 : attemptOutcome bus h.Timeout snip st.Requests = QueryOut.err := by
            simpa using hf 0 (by omega)
          have ihm := ih m { h with SlaveId := snip.DeviceId }
            { Requests := st.Requests + 1, Reconnects := st.Reconnects + 1 }
            (clock + 100) (by omega)
            (by
              intro i hi
              have := hf (i + 1) (by omega)
              simpa [Nat.add_assoc, Nat.add_comm 1 i] using this)
            (by
              have := hs
              simpa [Nat.add_assoc, Nat.add_comm 1 j] using this)
          rw [runRetries_succ, hf0]
          simp only [ihm]
          have h1 : clock + 100 * (j + 1) = clock + 100 + 100 * j := by ring
          have h2 : st.Requests + (j + 1) + 1 = st.Requests + 1 + j + 1 := by omega
          have h3 : st.Reconnects + (j + 1) = st.Reconnects + 1 + j := by omega
          rw [h1, h2, h3]
          simp [failEvents]

lemma runRetries_allFail (bus : Bus) (snip : QuerySnip) :
    ∀ (n : Nat) (h : Handler) (st : Status) (clock : Nat),
    (∀ i, i < n + 1 → attemptOutcome bus h.Timeout snip (st.Requests + i) = QueryOut.err) →
    runRetries bus snip (n + 1) h st clock =
      some { handler := { h with SlaveId := snip.DeviceId },
             status := { Requests := st.Requests + (n + 1),
                         Reconnects := st.Reconnects + (n + 1) },
             clock := clock + 100 * (n + 1),
             events := failEvents snip.DeviceId clock (n + 1),
             outputs := [],
             controls := [errorControlSnip snip.DeviceId] } := by
  intro n
  induction n with
  | zero =>
      intro h st clock hf
      have hf0 : attemptOutcome bus h.Timeout snip st.Requests = QueryOut.err := by
        simpa using hf 0 (by omega)
      rw [runRetries_succ, hf0]
      simp [runRetries, failEvents]
  | succ m ih =>
      intro h st clock hf
      have hf0 : attemptOutcome bus h.Timeout snip st.Requests = QueryOut.err := by
        simpa using hf 0 (by omega)
      have ihm := ih { h with SlaveId := snip.DeviceId }
        { Requests := st.Requests + 1, Reconnects := st.Reconnects + 1 } (clock + 100)
        (by
          intro i hi
          have := hf (i + 1) (by omega)
          simpa [Nat.add_assoc, Nat.add_comm 1 i] using this)
      rw [runRetries_succ, hf0]
      simp only [ihm]
      have h1 : clock + 100 * (m + 1 + 1) = clock + 100 + 100 * (m + 1) := by ring
      have h2 : st.Requests + (m + 1 + 1) = st.Requests + 1 + (m + 1) := by omega
      have h3 : st.Reconnects + (m + 1 + 1) = st.Reconnects + 1 + (m + 1) := by omega
      rw [h1, h2, h3]
      simp [failEvents]

lemma attemptOutcome_ne_fatal (bus : Bus) (tmo : Nat) (snip : QuerySnip)
    (idx : Nat) (hv : ValidSnip snip) :
    attemptOutcome bus tmo snip idx ≠ QueryOut.fatal := by
  obtain ⟨h1, h2⟩ := hv
  unfold attemptOutcome query
  rcases h2 with h2 | h2 <;>
    simp only [h1, h2, ReadInputReg, ReadHoldingReg, if_false, if_true] <;>
    simp [ofExcept, h1] <;>
    rcases bus.readInput tmo idx snip.DeviceId snip.OpCode snip.ReadLen with b | e <;>
    rcases bus.readHolding tmo idx snip.DeviceId snip.OpCode snip.ReadLen with b | e <;>
    simp [ofExcept]

lemma runRetries_isSome (bus : Bus) (snip : QuerySnip) (hv : ValidSnip snip) :
    ∀ (n : Nat) (h : Handler) (st : Status) (clock : Nat),
    (runRetries bus snip n h st clock).isSome := by
  intro n
  induction n with
  | zero => intro h st clock; simp [runRetries]
  | succ m ih =>
      intro h st clock
      rw [runRetries_succ]
      cases hq : attemptOutcome bus h.Timeout snip st.Requests with
      | fatal => exact absurd hq (attemptOutcome_ne_fatal bus h.Timeout snip st.Requests hv)
      | ok bytes => simp
      | err =>
          have hrec := ih { h with SlaveId := snip.DeviceId }
            { Requests := st.Requests + 1, Reconnects := st.Reconnects + 1 } (clock + 100)
          rcases ho : runRetries bus snip m { h with SlaveId := snip.DeviceId }
            { Requests := st.Requests + 1, Reconnects := st.Reconnects + 1 } (clock + 100)
            with _ | r
          · rw [ho] at hrec; simp at hrec
          · simp [ho]

lemma runRetries_bounds (bus : Bus) (snip : QuerySnip) :
    ∀ (n : Nat) (h : Handler) (st : Status) (clock : Nat) (r : RetryOut),
    runRetries bus snip n h st clock = some r →
    clock ≤ r.clock ∧ ∀ t ∈ attemptTimes r.events, clock ≤ t ∧ t ≤ r.clock := by
  intro n
  induction n with
  | zero =>
      intro h st clock r hr
      simp only [runRetries, Option.some.injEq] at hr
      subst hr
      simp [attemptTimes]
  | succ m ih =>
      intro h st clock r hr
      rw [runRetries_succ] at hr
      cases hq : attemptOutcome bus h.Timeout snip st.Requests with
      | fatal => rw [hq] at hr; simp at hr
      | ok bytes =>
          rw [hq] at hr
          simp only [Option.some.injEq] at hr
          subst hr
          simp [attemptTimes]
      | err =>
          rw [hq] at hr
          rcases ho : runRetries bus snip m { h with SlaveId := snip.DeviceId }
            { Requests := st.Requests + 1, Reconnects := st.Reconnects + 1 } (clock + 100)
            with _ | r2
          · rw [ho] at hr; simp at hr
          · rw [ho] at hr
            simp only [Option.some.injEq] at hr
            subst hr
            obtain ⟨hc, hts⟩ := ih _ _ _ _ ho
            refine ⟨?_, ?_⟩
            · show clock ≤ r2.clock
              exact le_trans (Nat.le_add_right clock 100) hc
            · intro t ht
              show clock ≤ t ∧ t ≤ r2.clock
              simp only [attemptTimes, List.filterMap_cons] at ht
              simp at ht
              rcases ht with ht | ht
              · constructor <;> omega
              · have hm := hts t (by simpa [attemptTimes] using ht)
                exact ⟨le_trans (Nat.le_add_right clock 100) hm.1, hm.2⟩

lemma runRetries_head (bus : Bus) (snip : QuerySnip) (n : Nat) (h : Handler)
    (st : Status) (clock : Nat) (r : RetryOut)
    (hr : runRetries bus snip (n + 1) h st clock = some r) :
    r.events.head? = some (Event.attempt clock snip.DeviceId) := by
  rw [runRetries_succ] at hr
  cases hq : attemptOutcome bus h.Timeout snip st.Requests with
  | fatal => rw [hq] at hr; simp at hr
  | ok bytes =>
      rw [hq] at hr
      simp only [Option.some.injEq] at hr
      subst hr
      rfl
  | err =>
      rw [hq] at hr
      rcases ho : runRetries bus snip n { h with SlaveId := snip.DeviceId }
        { Requests := st.Requests + 1, Reconnects := st.Reconnects + 1 } (clock + 100)
        with _ | r2
      · rw [ho] at hr; simp at hr
      · rw [ho] at hr
        simp only [Option.some.injEq] at hr
        subst hr
        rfl

lemma runRetries_controls (bus : Bus) (snip : QuerySnip) :
    ∀ (n : Nat) (h : Handler) (st : Status) (clock : Nat) (r : RetryOut),
    runRetries bus snip n h st clock = some r →
    r.controls = [okControlSnip snip.DeviceId] ∨
      r.controls = [errorControlSnip snip.DeviceId] := by
  intro n
  induction n with
  | zero =>
      intro h st clock r hr
      simp only [runRetries, Option.some.injEq] at hr
      subst hr
      simp
  | succ m ih =>
      intro h st clock r hr
      rw [runRetries_succ] at hr
      cases hq : attemptOutcome bus h.Timeout snip st.Requests with
      | fatal => rw [hq] at hr; simp at hr
      | ok bytes =>
          rw [hq] at hr
          simp only [Option.some.injEq] at hr
          subst hr
          simp
      | err =>
          rw [hq] at hr
          rcases ho : runRetries bus snip m { h with SlaveId := snip.DeviceId }
            { Requests := st.Requests + 1, Reconnects := st.Reconnects + 1 } (clock + 100)
            with _ | r2
          · rw [ho] at hr; simp at hr
          · rw [ho] at hr
            simp only [Option.some.injEq] at hr
            subst hr
            simpa using ih _ _ _ _ ho

end Sdm630
namespace Sdm630

lemma attemptTimes_append (a b : List Event) :
    attemptTimes (a ++ b) = attemptTimes a ++ attemptTimes b := by
  simp [attemptTimes]

lemma attemptTimes_failEvents (dev : Nat) : ∀ (clock j : Nat),
    (attemptTimes (failEvents dev clock j)).length = j := by
  intro clock j
  induction j generalizing clock with
  | zero => simp [failEvents, attemptTimes]
  | succ m ih => simp [failEvents, attemptTimes] at ih ⊢; exact ih _

/-- Claim C1: for a `QuerySnip` whose query first succeeds on attempt `k`
(`1 ≤ k ≤ MaxRetryCount`), one iteration of the polling loop forwards
exactly one completed snip (value decoded by the snip's transform, read
timestamp stamped), emits exactly one OK `ControlSnip` for that device,
performs exactly `k` query attempts (none after the success), and increases
the reconnect counter by exactly `k - 1` (and the request counter by `k`). -/
theorem pollingLoop_firstSuccess_kth_attempt (bus : Bus) (ls : LoopState)
    (snip : QuerySnip) (k : Nat) (bytes : List Nat)
    (hk1 : 1 ≤ k) (hk5 : k ≤ MaxRetryCount)
    (hfail : ∀ i, i < k - 1 →
      attemptOutcome bus ls.handler.Timeout snip (ls.status.Requests + i) = QueryOut.err)
    (hsucc : attemptOutcome bus ls.handler.Timeout snip (ls.status.Requests + (k - 1)) =
      QueryOut.ok bytes) :
    ∃ o : LoopOut,
      processOne bus ls snip = some o ∧
      (∃ ts : Nat, o.outputs = [{ snip with
                                   Value := snip.Transform bytes,
                                   ReadTimestamp := ts }]) ∧
      o.controls = [okControlSnip snip.DeviceId] ∧
      (attemptTimes o.events).length = k ∧
      o.state.status.Reconnects = ls.status.Reconnects + (k - 1) ∧
      o.state.status.Requests = ls.status.Requests + k := by
  have h5 : MaxRetryCount = 4 + 1 := rfl
  have hj : k - 1 < MaxRetryCount := by rw [h5]; rw [h5] at hk5; omega
  have hrr := runRetries_success bus snip bytes (k - 1) MaxRetryCount ls.handler ls.status
    (if ls.previousDeviceId ≠ snip.DeviceId then ls.clock + 100 else ls.clock)
    hj hfail hsucc
  have hpo : processOne bus ls snip = some
      { state := { handler := { ls.handler with SlaveId := snip.DeviceId },
                   previousDeviceId := snip.DeviceId,
                   status := { Requests := ls.status.Requests + (k - 1) + 1,
                               Reconnects := ls.status.Reconnects + (k - 1) },
                   clock := (if ls.previousDeviceId ≠ snip.DeviceId
                             then ls.clock + 100 else ls.clock) + 100 * (k - 1) },
        events := (if ls.previousDeviceId ≠ snip.DeviceId
                   then [Event.settle ls.clock] else []) ++
                  (failEvents snip.DeviceId
                     (if ls.previousDeviceId ≠ snip.DeviceId
                      then ls.clock + 100 else ls.clock) (k - 1) ++
                   [Event.attempt ((if ls.previousDeviceId ≠ snip.DeviceId
                                    then ls.clock + 100 else ls.clock) + 100 * (k - 1))
                      snip.DeviceId]),
        outputs := [{ snip with
                       Value := snip.Transform bytes,
                       ReadTimestamp := (if ls.previousDeviceId ≠ snip.DeviceId
                                         then ls.clock + 100 else ls.clock) + 100 * (k - 1) }],
        controls := [okControlSnip snip.DeviceId] } := by
    simp only [processOne]
    rw [hrr]
  refine ⟨_, hpo, ⟨_, rfl⟩, rfl, ?_, rfl, ?_⟩
  · rw [attemptTimes_append, attemptTimes_append]
    have hs : (attemptTimes (if ls.previousDeviceId ≠ snip.DeviceId
        then [Event.settle ls.clock] else [])) = [] := by
      split <;> rfl
    rw [hs, List.nil_append, List.length_append, attemptTimes_failEvents]
    have h1 : (attemptTimes [Event.attempt ((if ls.previousDeviceId ≠ snip.DeviceId
        then ls.clock + 100 else ls.clock) + 100 * (k - 1)) snip.DeviceId]).length = 1 := rfl
    rw [h1]
    omega
  · show ls.status.Requests + (k - 1) + 1 = ls.status.Requests + k
    omega

/-- Claim C2: for a `QuerySnip` whose query fails on all `MaxRetryCount`
attempts, one iteration of the polling loop emits exactly one ERROR
`ControlSnip` naming that device, forwards nothing on the output stream,
increases the reconnect counter by exactly `MaxRetryCount`, and the loop
then processes the remaining queued requests unchanged (the failed snip is
dropped, not re-queued). -/
theorem pollingLoop_exhaustion_emits_one_error (bus : Bus) (ls : LoopState)
    (snip : QuerySnip)
    (hfail : ∀ i, i < MaxRetryCount →
      attemptOutcome bus ls.handler.Timeout snip (ls.status.Requests + i) = QueryOut.err) :
    ∃ o : LoopOut,
      processOne bus ls snip = some o ∧
      o.controls = [errorControlSnip snip.DeviceId] ∧
      o.outputs = [] ∧
      o.state.status.Reconnects = ls.status.Reconnects + MaxRetryCount ∧
      o.state.status.Requests = ls.status.Requests + MaxRetryCount ∧
      (∀ (rest : List QuerySnip) (ro : LoopOut),
        Transform bus o.state rest = some ro →
        Transform bus ls (snip :: rest) =
          some { state := ro.state,
                 events := o.events ++ ro.events,
                 outputs := ro.outputs,
                 controls := errorControlSnip snip.DeviceId :: ro.controls }) := by
  have hrr := runRetries_allFail bus snip 4 ls.handler ls.status
    (if ls.previousDeviceId ≠ snip.DeviceId then ls.clock + 100 else ls.clock)
    hfail
  have hpo : processOne bus ls snip = some
      { state := { handler := { ls.handler with SlaveId := snip.DeviceId },
                   previousDeviceId := snip.DeviceId,
                   status := { Requests := ls.status.Requests + MaxRetryCount,
                               Reconnects := ls.status.Reconnects + MaxRetryCount },
                   clock := (if ls.previousDeviceId ≠ snip.DeviceId
                             then ls.clock + 100 else ls.clock) + 100 * MaxRetryCount },
        events := (if ls.previousDeviceId ≠ snip.DeviceId
                   then [Event.settle ls.clock] else []) ++
                  failEvents snip.DeviceId
                    (if ls.previousDeviceId ≠ snip.DeviceId
                     then ls.clock + 100 else ls.clock) MaxRetryCount,
        outputs := [],
        controls := [errorControlSnip snip.DeviceId] } := by
    simp only [processOne]
    rw [show MaxRetryCount = 4 + 1 from rfl]
    rw [hrr]
  refine ⟨_, hpo, rfl, rfl, rfl, rfl, ?_⟩
  intro rest ro hro
  simp only [ne_eq, ite_not] at hro
  simp [Transform, hpo, hro]

end Sdm630
namespace Sdm630

lemma processOne_inv (bus : Bus) (ls : LoopState) (snip : QuerySnip) (o : LoopOut)
    (h : processOne bus ls snip = some o) :
    ∃ r : RetryOut,
      runRetries bus snip MaxRetryCount ls.handler ls.status
        (if ls.previousDeviceId ≠ snip.DeviceId then ls.clock + 100 else ls.clock) = some r ∧
      o = { state := { handler := r.handler, previousDeviceId := snip.DeviceId,
                       status := r.status, clock := r.clock },
            events := (if ls.previousDeviceId ≠ snip.DeviceId
                       then [Event.settle ls.clock] else []) ++ r.events,
            outputs := r.outputs, controls := r.controls } := by
  simp only [processOne] at h
  rcases ho : runRetries bus snip MaxRetryCount ls.handler ls.status
      (if ls.previousDeviceId ≠ snip.DeviceId then ls.clock + 100 else ls.clock)
    with _ | r
  · rw [ho] at h; simp at h
  · rw [ho] at h
    simp only [Option.some.injEq] at h
    exact ⟨r, rfl, h.symm⟩

lemma runRetries_no_settle (bus : Bus) (snip : QuerySnip) :
    ∀ (n : Nat) (h : Handler) (st : Status) (clock : Nat) (r : RetryOut),
    runRetries bus snip n h st clock = some r →
    ∀ tm : Nat, Event.settle tm ∉ r.events := by
  intro n
  induction n with
  | zero =>
      intro h st clock r hr tm
      simp only [runRetries, Option.some.injEq] at hr
      subst hr
      simp
  | succ m ih =>
      intro h st clock r hr tm
      rw [runRetries_succ] at hr
      cases hq : attemptOutcome bus h.Timeout snip st.Requests with
      | fatal => rw [hq] at hr; simp at hr
      | ok bytes =>
          rw [hq] at hr
          simp only [Option.some.injEq] at hr
          subst hr
          simp
      | err =>
          rw [hq] at hr
          rcases ho : runRetries bus snip m { h with SlaveId := snip.DeviceId }
            { Requests := st.Requests + 1, Reconnects := st.Reconnects + 1 } (clock + 100)
            with _ | r2
          · rw [ho] at hr; simp at hr
          · rw [ho] at hr
            simp only [Option.some.injEq] at hr
            subst hr
            simpa using ih _ _ _ _ ho tm

lemma head_attemptTimes (evs : List Event) (c dev : Nat)
    (h : evs.head? = some (Event.attempt c dev)) :
    (attemptTimes evs).head? = some c := by
  cases evs with
  | nil => simp at h
  | cons e t =>
      simp at h
      subst h
      rfl

lemma processOne_isSome (bus : Bus) (ls : LoopState) (snip : QuerySnip)
    (hv : ValidSnip snip) : (processOne bus ls snip).isSome := by
  simp only [processOne]
  have := runRetries_isSome bus snip hv MaxRetryCount ls.handler ls.status
    (if ls.previousDeviceId ≠ snip.DeviceId then ls.clock + 100 else ls.clock)
  rcases ho : runRetries bus snip MaxRetryCount ls.handler ls.status
      (if ls.previousDeviceId ≠ snip.DeviceId then ls.clock + 100 else ls.clock)
    with _ | r
  · rw [ho] at this; simp at this
  · rfl

lemma processOne_controls_map (bus : Bus) (ls : LoopState) (snip : QuerySnip)
    (o : LoopOut) (h : processOne bus ls snip = some o) :
    o.controls.map ControlSnip.DeviceId = [snip.DeviceId] := by
  obtain ⟨r, hr, ho⟩ := processOne_inv bus ls snip o h
  subst ho
  rcases runRetries_controls bus snip MaxRetryCount ls.handler ls.status _ r hr
    with hc | hc <;> simp [hc, okControlSnip, errorControlSnip]

/-- Claim C3: device-switch pacing: when two consecutively dequeued snips
address different devices, every query attempt of the second lies at least
100 ms (the settle sleep) after every attempt of the first; when they
address the same device, no settle sleep occurs in the second iteration and
its first attempt starts exactly at the clock value the first iteration
ended with (no enforced gap). -/
theorem pollingLoop_settle_pacing (bus : Bus) (ls : LoopState)
    (s1 s2 : QuerySnip) (o1 o2 : LoopOut)
    (h1 : processOne bus ls s1 = some o1)
    (h2 : processOne bus o1.state s2 = some o2) :
    (s1.DeviceId ≠ s2.DeviceId →
      ∀ t1 ∈ attemptTimes o1.events, ∀ t2 ∈ attemptTimes o2.events, t1 + 100 ≤ t2) ∧
    (s1.DeviceId = s2.DeviceId →
      (∀ tm : Nat, Event.settle tm ∉ o2.events) ∧
      (attemptTimes o2.events).head? = some o1.state.clock) := by
  obtain ⟨r1, hr1, ho1⟩ := processOne_inv bus ls s1 o1 h1
  obtain ⟨r2, hr2, ho2⟩ := processOne_inv bus o1.state s2 o2 h2
  have hprev : o1.state.previousDeviceId = s1.DeviceId := by rw [ho1]
  have hclk : o1.state.clock = r1.clock := by rw [ho1]
  constructor
  · intro hne t1 ht1 t2 ht2
    have hb1 := runRetries_bounds bus s1 MaxRetryCount ls.handler ls.status _ r1 hr1
    have hb2 := runRetries_bounds bus s2 MaxRetryCount o1.state.handler o1.state.status _ r2 hr2
    have ht1' : t1 ∈ attemptTimes r1.events := by
      rw [ho1] at ht1
      rw [attemptTimes_append] at ht1
      rcases List.mem_append.1 ht1 with hmem | hmem
      · exfalso
        rcases Decidable.em (ls.previousDeviceId = s1.DeviceId) with he | he <;>
          simp [he, attemptTimes] at hmem
      · exact hmem
    have ht2' : t2 ∈ attemptTimes r2.events := by
      rw [ho2] at ht2
      rw [attemptTimes_append] at ht2
      rcases List.mem_append.1 ht2 with hmem | hmem
      · exfalso
        rcases Decidable.em (o1.state.previousDeviceId = s2.DeviceId) with he | he <;>
          simp [he, attemptTimes] at hmem
      · exact hmem
    have hub : t1 ≤ r1.clock := (hb1.2 t1 ht1').2
    have hstart2 : (if o1.state.previousDeviceId ≠ s2.DeviceId
        then o1.state.clock + 100 else o1.state.clock) = o1.state.clock + 100 := by
      rw [hprev]
      simp [hne]
    rw [hstart2] at hb2
    have hlb : o1.state.clock + 100 ≤ t2 := (hb2.2 t2 ht2').1
    rw [hclk] at hlb
    omega
  · intro heq
    have hset : (if o1.state.previousDeviceId ≠ s2.DeviceId
        then [Event.settle o1.state.clock] else []) = [] := by
      rw [hprev]
      simp [heq]
    have hstart2 : (if o1.state.previousDeviceId ≠ s2.DeviceId
        then o1.state.clock + 100 else o1.state.clock) = o1.state.clock := by
      rw [hprev]
      simp [heq]
    have hev2 : o2.events = r2.events := by
      rw [ho2, hset, List.nil_append]
    constructor
    · intro tm
      rw [hev2]
      exact runRetries_no_settle bus s2 MaxRetryCount o1.state.handler o1.state.status _ r2 hr2 tm
    · rw [hev2]
      rw [hstart2] at hr2
      have hh := runRetries_head bus s2 4 o1.state.handler o1.state.status o1.state.clock r2
        (by rw [show (4 + 1 : Nat) = MaxRetryCount from rfl]; exact hr2)
      exact head_attemptTimes r2.events o1.state.clock s2.DeviceId hh

/-- Claim C10: the very first snip dequeued after the loop starts always
incurs the 100 ms settle sleep, for every valid device address 1-247:
`previousDeviceId` starts at 0, which never equals the snip's address, so
the trace begins with the settle event and the first query attempt happens
only at 100 ms. -/
theorem pollingLoop_first_snip_settles (bus : Bus) (h : Handler) (st : Status)
    (snip : QuerySnip) (hv : ValidSnip snip)
    (hdev1 : 1 ≤ snip.DeviceId) (hdev247 : snip.DeviceId ≤ 247) :
    ∃ o : LoopOut,
      processOne bus (initialLoopState h st) snip = some o ∧
      o.events.head? = some (Event.settle 0) ∧
      (attemptTimes o.events).head? = some 100 := by
  have hne0 : (0 : Nat) ≠ snip.DeviceId := by omega
  have hsome := processOne_isSome bus (initialLoopState h st) snip hv
  rcases hpo : processOne bus (initialLoopState h st) snip with _ | o
  · rw [hpo] at hsome; simp at hsome
  · obtain ⟨r, hr, ho⟩ := processOne_inv bus (initialLoopState h st) snip o hpo
    have hset : (if (initialLoopState h st).previousDeviceId ≠ snip.DeviceId
        then [Event.settle (initialLoopState h st).clock] else []) =
        [Event.settle 0] := by
      simp [initialLoopState, hne0]
    have hstart : (if (initialLoopState h st).previousDeviceId ≠ snip.DeviceId
        then (initialLoopState h st).clock + 100 else (initialLoopState h st).clock) = 100 := by
      simp [initialLoopState, hne0]
    have hev : o.events = Event.settle 0 :: r.events := by
      rw [ho, hset, List.singleton_append]
    refine ⟨o, rfl, ?_, ?_⟩
    · rw [hev]; rfl
    · rw [hstart] at hr
      have hh := runRetries_head bus snip 4 (initialLoopState h st).handler
        (initialLoopState h st).status 100 r
        (by rw [show (4 + 1 : Nat) = MaxRetryCount from rfl]; exact hr)
      rw [hev]
      have : attemptTimes (Event.settle 0 :: r.events) = attemptTimes r.events := rfl
      rw [this]
      exact head_attemptTimes r.events 100 snip.DeviceId hh

/-- Claim C4: exactly one `ControlSnip` is emitted per dequeued `QuerySnip`,
and the control stream lists them in dequeue order: mapping the emitted
controls to their device ids reproduces the device ids of the dequeued
snips, in order. -/
theorem pollingLoop_controls_in_order (bus : Bus) (ls : LoopState)
    (snips : List QuerySnip) (hv : ∀ s ∈ snips, ValidSnip s) :
    ∃ o : LoopOut,
      Transform bus ls snips = some o ∧
      o.controls.map ControlSnip.DeviceId = snips.map QuerySnip.DeviceId := by
  induction snips generalizing ls with
  | nil => exact ⟨_, rfl, rfl⟩
  | cons s rest ih =>
      have hvs : ValidSnip s := hv s (by simp)
      have hsome := processOne_isSome bus ls s hvs
      rcases hpo : processOne bus ls s with _ | o1
      · rw [hpo] at hsome; simp at hsome
      · obtain ⟨o2, ht2, hc2⟩ := ih o1.state (fun x hx => hv x (by simp [hx]))
        refine ⟨{ state := o2.state, events := o1.events ++ o2.events,
                  outputs := o1.outputs ++ o2.outputs,
                  controls := o1.controls ++ o2.controls }, ?_, ?_⟩
        · simp only [Transform, hpo, ht2]
        · show (o1.controls ++ o2.controls).map ControlSnip.DeviceId =
            (s :: rest).map QuerySnip.DeviceId
          rw [List.map_append, hc2, processOne_controls_map bus ls s o1 hpo]
          rfl

end Sdm630
namespace Sdm630

/-- Claim C7: `query` validation and dispatch: a non-positive register count
aborts fatally (for every transport, so no request is issued), as does any
function code other than 3 and 4; otherwise function code 4 dispatches to
the read-input-registers primitive and function code 3 to the
read-holding-registers primitive, whose transport outcome (including any
error) is returned directly from the single call - no internal retry. -/
theorem query_validates_and_dispatches (bus : Bus) (h : Handler) (st : Status)
    (snip : QuerySnip) :
    (snip.ReadLen = 0 → (query bus h st snip).2.2 = QueryOut.fatal) ∧
    (snip.FuncCode ≠ ReadInputReg → snip.FuncCode ≠ ReadHoldingReg →
      (query bus h st snip).2.2 = QueryOut.fatal) ∧
    (snip.ReadLen ≠ 0 → snip.FuncCode = ReadInputReg →
      (query bus h st snip).2.2 =
        ofExcept (bus.readInput h.Timeout st.Requests snip.DeviceId snip.OpCode
          snip.ReadLen)) ∧
    (snip.ReadLen ≠ 0 → snip.FuncCode = ReadHoldingReg →
      (query bus h st snip).2.2 =
        ofExcept (bus.readHolding h.Timeout st.Requests snip.DeviceId snip.OpCode
          snip.ReadLen)) := by
  refine ⟨?_, ?_, ?_, ?_⟩
  · intro h0
    simp [query, h0]
  · intro hf4 hf3
    by_cases h0 : snip.ReadLen = 0 <;> simp [query, h0, hf4, hf3]
  · intro h0 h4
    simp [query, h0, h4]
  · intro h0 h3
    simp [query, h0, h3, ReadHoldingReg, ReadInputReg]

lemma attemptOutcome_stable (bus : Bus) (hstable : BusStable bus) (tmo : Nat)
    (snip : QuerySnip) (i j : Nat) :
    attemptOutcome bus tmo snip i = attemptOutcome bus tmo snip j := by
  simp only [attemptOutcome, query]
  split_ifs with h0 h4 h3
  · rfl
  · exact congrArg ofExcept (hstable tmo i j snip.DeviceId snip.OpCode snip.ReadLen).1
  · exact congrArg ofExcept (hstable tmo i j snip.DeviceId snip.OpCode snip.ReadLen).2
  · rfl

lemma probeLoop_cons (bus : Bus) (a : Nat) (p : Producer) (rest : List Producer)
    (h : Handler) (st : Status) :
    probeLoop bus a (p :: rest) h st =
      match attemptOutcome bus h.Timeout (p.Probe a) st.Requests with
      | QueryOut.fatal => none
      | QueryOut.ok _ =>
          some ({ h with SlaveId := (p.Probe a).DeviceId },
                { st with Requests := st.Requests + 1 },
                [((p.Probe a).DeviceId, h.Timeout)], some p.GetMeterType)
      | QueryOut.err =>
          match probeLoop bus a rest { h with SlaveId := (p.Probe a).DeviceId }
              { st with Requests := st.Requests + 1 } with
          | none => none
          | some (hf, stf, probes, r) =>
              some (hf, stf, ((p.Probe a).DeviceId, h.Timeout) :: probes, r) := by
  cases hq : attemptOutcome bus h.Timeout (p.Probe a) st.Requests <;>
    simp only [probeLoop, query_eq, hq]

lemma probeLoop_spec (bus : Bus) (hstable : BusStable bus) (a : Nat) :
    ∀ (ps : List Producer), (∀ p ∈ ps, ProducerWF p) →
    ∀ (h : Handler) (st : Status), h.Timeout = 50 →
    ∃ (hf : Handler) (stf : Status) (probes : List (Nat × Nat)),
      probeLoop bus a ps h st =
        some (hf, stf, probes,
          (ps.find? (fun p => probeOk bus p a)).map Producer.GetMeterType) ∧
      hf.Timeout = h.Timeout ∧
      (∀ pr ∈ probes, pr.1 = a ∧ pr.2 = h.Timeout) := by
  intro ps
  induction ps with
  | nil =>
      intro hwf h st htmo
      exact ⟨h, st, [], rfl, rfl, by simp⟩
  | cons p rest ih =>
      intro hwf h st htmo
      have hwfp : ProducerWF p := hwf p (by simp)
      have hdev : (p.Probe a).DeviceId = a := (hwfp a).1
      have hstab0 : attemptOutcome bus h.Timeout (p.Probe a) st.Requests =
          attemptOutcome bus 50 (p.Probe a) 0 := by
        rw [htmo]
        exact attemptOutcome_stable bus hstable 50 (p.Probe a) st.Requests 0
      cases hq : attemptOutcome bus h.Timeout (p.Probe a) st.Requests with
      | fatal =>
          exfalso
          exact attemptOutcome_ne_fatal bus h.Timeout (p.Probe a) st.Requests (hwfp a).2 hq
      | ok bytes =>
          have hok : probeOk bus p a = true := by
            simp only [probeOk]
            rw [← hstab0, hq]
            rfl
          refine ⟨{ h with SlaveId := (p.Probe a).DeviceId },
                  { st with Requests := st.Requests + 1 },
                  [((p.Probe a).DeviceId, h.Timeout)], ?_, rfl, ?_⟩
          · rw [probeLoop_cons, hq]
            have hfind : List.find? (fun q => probeOk bus q a) (p :: rest) = some p := by
              rw [List.find?_cons, hok]
            simp [hfind]
          · intro pr hpr
            simp at hpr
            subst hpr
            exact ⟨hdev, rfl⟩
      | err =>
          have hnok : probeOk bus p a = false := by
            simp only [probeOk]
            rw [← hstab0, hq]
            rfl
          obtain ⟨hf, stf, probes, heq, htf, hpr⟩ :=
            ih (fun x hx => hwf x (by simp [hx]))
              { h with SlaveId := (p.Probe a).DeviceId }
              { st with Requests := st.Requests + 1 } htmo
          refine ⟨hf, stf, ((p.Probe a).DeviceId, h.Timeout) :: probes, ?_, htf, ?_⟩
          · rw [probeLoop_cons, hq]
            have hfind : List.find? (fun q => probeOk bus q a) (p :: rest) =
                List.find? (fun q => probeOk bus q a) rest := by
              rw [List.find?_cons, hnok]
            rw [heq]
            simp [hfind]
          · intro pr hpr2
            rcases List.mem_cons.1 hpr2 with hh | hh
            · subst hh
              exact ⟨hdev, rfl⟩
            · exact hpr pr hh

end Sdm630
namespace Sdm630

lemma scanLoop_spec (bus : Bus) (hstable : BusStable bus) (producers : List Producer)
    (hwf : ∀ p ∈ producers, ProducerWF p) :
    ∀ (ids : List Nat) (h : Handler) (st : Status), h.Timeout = 50 →
    ∃ (hf : Handler) (stf : Status) (probes : List (Nat × Nat)),
      scanLoop bus producers ids h st =
        some (hf, stf, probes,
          ids.filterMap (fun a => (producers.find? (fun p => probeOk bus p a)).map
            (fun p => (a, p.GetMeterType))),
          ids.filter (fun a => producers.all (fun p => !(probeOk bus p a)))) ∧
      hf.Timeout = h.Timeout ∧
      (∀ pr ∈ probes, pr.1 ∈ ids ∧ pr.2 = 50) := by
  intro ids
  induction ids with
  | nil =>
      intro h st htmo
      exact ⟨h, st, [], rfl, rfl, by simp⟩
  | cons a rest ih =>
      intro h st htmo
      obtain ⟨h1, st1, probes1, hpl, ht1, hp1⟩ :=
        probeLoop_spec bus hstable a producers hwf h st htmo
      obtain ⟨hf, stf, probes2, hsl, htf, hp2⟩ := ih h1 st1 (by rw [ht1, htmo])
      refine ⟨hf, stf, probes1 ++ probes2, ?_, by rw [htf, ht1], ?_⟩
      · cases hfind : producers.find? (fun p => probeOk bus p a) with
        | none =>
            have hall : (producers.all fun p => !(probeOk bus p a)) = true := by
              rw [List.all_eq_true]
              intro x hx
              have := List.find?_eq_none.1 hfind x hx
              simp at this
              simp [this]
            simp only [scanLoop]
            rw [hpl, hfind]
            simp only [Option.map_none]
            rw [hsl]
            simp [List.filterMap_cons, hfind, List.filter_cons, hall]
        | some p =>
            have hpa : probeOk bus p a = true := by
              have := List.find?_some hfind
              simpa using this
            have hmem : p ∈ producers := List.mem_of_find?_eq_some hfind
            have hall : (producers.all fun p => !(probeOk bus p a)) = false := by
              rcases hq : producers.all fun p => !(probeOk bus p a) with _ | _
              · rfl
              · exfalso
                have := List.all_eq_true.1 hq p hmem
                simp [hpa] at this
            simp only [scanLoop]
            rw [hpl, hfind]
            simp only [Option.map_some]
            rw [hsl]
            simp [List.filterMap_cons, hfind, List.filter_cons, hall]
      · intro pr hm
        rcases List.mem_append.1 hm with hm | hm
        · obtain ⟨hpa, hpt⟩ := hp1 pr hm
          exact ⟨by simp [hpa], by rw [hpt, htmo]⟩
        · obtain ⟨hpa, hpt⟩ := hp2 pr hm
          exact ⟨by simp [hpa], hpt⟩

/-- Claim C5: the bus scan probes only slave addresses 1..247 (never 0, never
above 247), and on a steady bus its report lists exactly the addresses where
some producer's probe succeeds, each labelled with the meter type of the
first succeeding producer in the producer order, while every other address
is reported "n/a". -/
theorem Scan_probes_range_and_first_match (bus : Bus) (producers : List Producer)
    (h : Handler) (st : Status)
    (hstable : BusStable bus) (hwf : ∀ p ∈ producers, ProducerWF p) :
    ∃ r : ScanReport,
      Scan bus producers h st = some r ∧
      (∀ pr ∈ r.probes, 1 ≤ pr.1 ∧ pr.1 ≤ 247) ∧
      r.deviceList = (List.range' 1 247).filterMap (fun a =>
        (producers.find? (fun p => probeOk bus p a)).map
          (fun p => (a, p.GetMeterType))) ∧
      r.naList = (List.range' 1 247).filter (fun a =>
        producers.all (fun p => !(probeOk bus p a))) := by
  obtain ⟨hf, stf, probes, hsl, htf, hp⟩ :=
    scanLoop_spec bus hstable producers hwf (List.range' 1 247)
      { h with Timeout := 50 } st rfl
  refine ⟨{ handler := { hf with Timeout := h.Timeout }, status := stf,
            probes := probes,
            deviceList := (List.range' 1 247).filterMap (fun a =>
              (producers.find? (fun p => probeOk bus p a)).map
                (fun p => (a, p.GetMeterType))),
            naList := (List.range' 1 247).filter (fun a =>
              producers.all (fun p => !(probeOk bus p a))) }, ?_, ?_, rfl, rfl⟩
  · simp only [Scan]
    rw [hsl]
  · intro pr hm
    obtain ⟨hmem, _⟩ := hp pr hm
    have := List.mem_range'_1.1 hmem
    omega

lemma probeLoop_timeout (bus : Bus) (a : Nat) :
    ∀ (ps : List Producer) (h : Handler) (st : Status) (hf : Handler)
      (stf : Status) (probes : List (Nat × Nat)) (res : Option String),
    probeLoop bus a ps h st = some (hf, stf, probes, res) →
    hf.Timeout = h.Timeout ∧ ∀ pr ∈ probes, pr.2 = h.Timeout := by
  intro ps
  induction ps with
  | nil =>
      intro h st hf stf probes res hr
      simp only [probeLoop, Option.some.injEq, Prod.mk.injEq] at hr
      obtain ⟨e1, e2, e3, e4⟩ := hr
      subst e1
      subst e3
      simp
  | cons p rest ih =>
      intro h st hf stf probes res hr
      rw [probeLoop_cons] at hr
      cases hq : attemptOutcome bus h.Timeout (p.Probe a) st.Requests with
      | fatal => rw [hq] at hr; simp at hr
      | ok bytes =>
          rw [hq] at hr
          simp only [Option.some.injEq, Prod.mk.injEq] at hr
          obtain ⟨e1, e2, e3, e4⟩ := hr
          subst e1
          subst e3
          simp
      | err =>
          rw [hq] at hr
          rcases ho : probeLoop bus a rest { h with SlaveId := (p.Probe a).DeviceId }
              { st with Requests := st.Requests + 1 } with _ | ⟨hf2, stf2, probes2, res2⟩
          · rw [ho] at hr; simp at hr
          · rw [ho] at hr
            simp only [Option.some.injEq, Prod.mk.injEq] at hr
            obtain ⟨e1, e2, e3, e4⟩ := hr
            subst e1
            subst e3
            obtain ⟨hta, htb⟩ := ih _ _ _ _ _ _ ho
            refine ⟨hta, ?_⟩
            intro pr hm
            rcases List.mem_cons.1 hm with hh | hh
            · subst hh; rfl
            · exact htb pr hh

lemma scanLoop_timeout (bus : Bus) (producers : List Producer) :
    ∀ (ids : List Nat) (h : Handler) (st : Status) (hf : Handler) (stf : Status)
      (probes : List (Nat × Nat)) (devs : List (Nat × String)) (nas : List Nat),
    scanLoop bus producers ids h st = some (hf, stf, probes, devs, nas) →
    hf.Timeout = h.Timeout ∧ ∀ pr ∈ probes, pr.2 = h.Timeout := by
  intro ids
  induction ids with
  | nil =>
      intro h st hf stf probes devs nas hr
      simp only [scanLoop, Option.some.injEq, Prod.mk.injEq] at hr
      obtain ⟨e1, e2, e3, e4, e5⟩ := hr
      subst e1
      subst e3
      simp
  | cons a rest ih =>
      intro h st hf stf probes devs nas hr
      rcases hpl : probeLoop bus a producers h st with _ | ⟨h1, st1, probes1, res1⟩
      · simp only [scanLoop, hpl] at hr
        exact absurd hr (by simp)
      · rcases hsl : scanLoop bus producers rest h1 st1
            with _ | ⟨hf2, stf2, probes2, devs2, nas2⟩
        · simp only [scanLoop, hpl, hsl] at hr
          exact absurd hr (by simp)
        · simp only [scanLoop, hpl, hsl] at hr
          obtain ⟨hta, htb⟩ := probeLoop_timeout bus a producers h st h1 st1 probes1 res1 hpl
          obtain ⟨htc, htd⟩ := ih h1 st1 hf2 stf2 probes2 devs2 nas2 hsl
          have hout : hf = hf2 ∧ probes = probes1 ++ probes2 := by
            cases res1 with
            | none =>
                simp only [Option.some.injEq, Prod.mk.injEq] at hr
                obtain ⟨e1, e2, e3, e4, e5⟩ := hr
                exact ⟨e1.symm, e3.symm⟩
            | some label =>
                simp only [Option.some.injEq, Prod.mk.injEq] at hr
                obtain ⟨e1, e2, e3, e4, e5⟩ := hr
                exact ⟨e1.symm, e3.symm⟩
          obtain ⟨he1, he2⟩ := hout
          subst he1
          subst he2
          refine ⟨by rw [htc, hta], ?_⟩
          intro pr hm
          rcases List.mem_append.1 hm with hh | hh
          · exact htb pr hh
          · rw [htd pr hh, hta]

/-- Claim C6: the scan runs with the session timeout overridden to 50 ms -
every probe it issues goes out under a 50 ms timeout - and on completion
the handler timeout equals its pre-scan value. -/
theorem Scan_scoped_timeout_restored (bus : Bus) (producers : List Producer)
    (h : Handler) (st : Status) (r : ScanReport)
    (hr : Scan bus producers h st = some r) :
    r.handler.Timeout = h.Timeout ∧ ∀ pr ∈ r.probes, pr.2 = 50 := by
  simp only [Scan] at hr
  rcases hsl : scanLoop bus producers (List.range' 1 247) { h with Timeout := 50 } st
      with _ | ⟨hf, stf, probes, devs, nas⟩
  · rw [hsl] at hr; simp at hr
  · rw [hsl] at hr
    simp only [Option.some.injEq] at hr
    subst hr
    obtain ⟨hta, htb⟩ :=
      scanLoop_timeout bus producers (List.range' 1 247) { h with Timeout := 50 }
        st hf stf probes devs nas hsl
    exact ⟨rfl, fun pr hm => htb pr hm⟩

end Sdm630
namespace Sdm630

lemma bigEndianUint32_take (b : List Nat) :
    bigEndianUint32 b = bigEndianUint32 (b.take 4) := by
  rcases b with _ | ⟨b0, _ | ⟨b1, _ | ⟨b2, _ | ⟨b3, t⟩⟩⟩⟩ <;> simp [bigEndianUint32]

lemma bigEndianUint16_take (b : List Nat) :
    bigEndianUint16 b = bigEndianUint16 (b.take 2) := by
  rcases b with _ | ⟨b0, _ | ⟨b1, t⟩⟩ <;> simp [bigEndianUint16]

lemma bigEndianUint32_isSome (b : List Nat) (h : 4 ≤ b.length) :
    (bigEndianUint32 b).isSome := by
  rcases b with _ | ⟨b0, _ | ⟨b1, _ | ⟨b2, _ | ⟨b3, t⟩⟩⟩⟩ <;>
    simp [bigEndianUint32] at h ⊢

lemma bigEndianUint16_isSome (b : List Nat) (h : 2 ≤ b.length) :
    (bigEndianUint16 b).isSome := by
  rcases b with _ | ⟨b0, _ | ⟨b1, t⟩⟩ <;> simp [bigEndianUint16] at h ⊢

/-- Claim C8: the 32-bit decode of the big-endian IEEE-754 single-precision
bytes of 3.25 (bit pattern 0x40500000) is exactly 3.25 = 13/4, and the
scaled 16-bit decode of the big-endian bytes of 1234 with scalar 10 is
exactly 1234/10 = 123.4 = 617/5. -/
theorem decode_values_roundtrip :
    RTU32ToFloat64 [64, 80, 0, 0] = some (FloatVal.finite (13 / 4)) ∧
    rtuScaledInt16ToFloat64 [4, 210] 10 = some (FloatVal.finite (617 / 5)) := by
  constructor
  · norm_num [RTU32ToFloat64, bigEndianUint32, float32frombits]
  · norm_num [rtuScaledInt16ToFloat64, bigEndianUint16, floatDiv]

/-- Claim C9: each decode is total on byte slices at least as long as its
declared register width (4 bytes for the 32-bit decodes, 2 for the 16-bit
ones), and depends only on that prefix of its byte-slice argument (and the
scalar): no out-of-range access, no other state. -/
theorem decode_total_and_frame (b c : List Nat) (s : ℚ) :
    (4 ≤ b.length → (RTU32ToFloat64 b).isSome ∧ (rtuScaledInt32ToFloat64 b s).isSome) ∧
    (2 ≤ b.length → (RTU16ToFloat64 b).isSome ∧ (rtuScaledInt16ToFloat64 b s).isSome) ∧
    (b.take 4 = c.take 4 → RTU32ToFloat64 b = RTU32ToFloat64 c ∧
      rtuScaledInt32ToFloat64 b s = rtuScaledInt32ToFloat64 c s) ∧
    (b.take 2 = c.take 2 → RTU16ToFloat64 b = RTU16ToFloat64 c ∧
      rtuScaledInt16ToFloat64 b s = rtuScaledInt16ToFloat64 c s) := by
  refine ⟨?_, ?_, ?_, ?_⟩
  · intro h
    have h32 := bigEndianUint32_isSome b h
    rcases hb : bigEndianUint32 b with _ | v
    · rw [hb] at h32
      simp at h32
    · constructor <;> simp [RTU32ToFloat64, rtuScaledInt32ToFloat64, hb]
  · intro h
    have h16 := bigEndianUint16_isSome b h
    rcases hb : bigEndianUint16 b with _ | v
    · rw [hb] at h16
      simp at h16
    · constructor <;> simp [RTU16ToFloat64, rtuScaledInt16ToFloat64, hb]
  · intro h
    have key : bigEndianUint32 b = bigEndianUint32 c := by
      rw [bigEndianUint32_take b, h, ← bigEndianUint32_take c]
    constructor <;> simp [RTU32ToFloat64, rtuScaledInt32ToFloat64, key]
  · intro h
    have key : bigEndianUint16 b = bigEndianUint16 c := by
      rw [bigEndianUint16_take b, h, ← bigEndianUint16_take c]
    constructor <;> simp [RTU16ToFloat64, rtuScaledInt16ToFloat64, key]

/-- Witness for C1 at a concrete input: first attempt fails, second
succeeds (k = 2). -/
theorem pollingLoop_firstSuccess_kth_attempt_witness :
    ∃ o : LoopOut,
      processOne busSecondTry (initialLoopState handlerW statusW) snipW = some o ∧
      (∃ ts : Nat, o.outputs = [{ snipW with
                                   Value := snipW.Transform [64, 80, 0, 0],
                                   ReadTimestamp := ts }]) ∧
      o.controls = [okControlSnip snipW.DeviceId] ∧
      (attemptTimes o.events).length = 2 ∧
      o.state.status.Reconnects =
        (initialLoopState handlerW statusW).status.Reconnects + (2 - 1) ∧
      o.state.status.Requests =
        (initialLoopState handlerW statusW).status.Requests + 2 :=
  pollingLoop_firstSuccess_kth_attempt busSecondTry (initialLoopState handlerW statusW)
    snipW 2 [64, 80, 0, 0] (by decide) (by decide)
    (by
      intro i hi
      have h0 : i = 0 := by omega
      subst h0
      rfl)
    (by rfl)

/-- Witness for C2 at a concrete input: every attempt fails. -/
theorem pollingLoop_exhaustion_emits_one_error_witness :
    ∃ o : LoopOut,
      processOne busAlwaysErr (initialLoopState handlerW statusW) snipW = some o ∧
      o.controls = [errorControlSnip snipW.DeviceId] ∧
      o.outputs = [] ∧
      o.state.status.Reconnects =
        (initialLoopState handlerW statusW).status.Reconnects + MaxRetryCount ∧
      o.state.status.Requests =
        (initialLoopState handlerW statusW).status.Requests + MaxRetryCount ∧
      (∀ (rest : List QuerySnip) (ro : LoopOut),
        Transform busAlwaysErr o.state rest = some ro →
        Transform busAlwaysErr (initialLoopState handlerW statusW) (snipW :: rest) =
          some { state := ro.state,
                 events := o.events ++ ro.events,
                 outputs := ro.outputs,
                 controls := errorControlSnip snipW.DeviceId :: ro.controls }) :=
  pollingLoop_exhaustion_emits_one_error busAlwaysErr (initialLoopState handlerW statusW)
    snipW (by intro i hi; rfl)

/-- Witness for C3 at a concrete input: device 1 then device 2 on a bus
that always answers. -/
theorem pollingLoop_settle_pacing_witness :
    ∃ o1 o2 : LoopOut,
      processOne busAlwaysOk (initialLoopState handlerW statusW) snipW = some o1 ∧
      processOne busAlwaysOk o1.state snipW2 = some o2 ∧
      (∀ t1 ∈ attemptTimes o1.events, ∀ t2 ∈ attemptTimes o2.events, t1 + 100 ≤ t2) := by
  refine ⟨_, _, rfl, rfl, ?_⟩
  exact (pollingLoop_settle_pacing busAlwaysOk (initialLoopState handlerW statusW)
    snipW snipW2 _ _ rfl rfl).1 (by decide)

/-- Witness for C4 at a concrete input: two requests, two in-order OK
controls. -/
theorem pollingLoop_controls_in_order_witness :
    ∃ o : LoopOut,
      Transform busAlwaysOk (initialLoopState handlerW statusW) [snipW, snipW2] = some o ∧
      o.controls.map ControlSnip.DeviceId = [snipW, snipW2].map QuerySnip.DeviceId :=
  pollingLoop_controls_in_order busAlwaysOk (initialLoopState handlerW statusW)
    [snipW, snipW2]
    (by
      intro s hs
      rcases List.mem_cons.1 hs with h | h
      · subst h
        exact ⟨by decide, Or.inl rfl⟩
      · have : s = snipW2 := by simpa using h
        subst this
        exact ⟨by decide, Or.inl rfl⟩)

set_option maxRecDepth 8192 in
/-- Witness for C5 on the spec's simulated bus: only addresses 5 and 42
respond, and the report lists exactly those two with the producer's label. -/
theorem Scan_probes_range_and_first_match_witness :
    ∃ r : ScanReport,
      Scan busScanTwo [producerW] handlerW statusW = some r ∧
      (∀ pr ∈ r.probes, 1 ≤ pr.1 ∧ pr.1 ≤ 247) ∧
      r.deviceList = [(5, "SDM"), (42, "SDM")] := by
  obtain ⟨r, hr, hpr, hdev, hna⟩ :=
    Scan_probes_range_and_first_match busScanTwo [producerW] handlerW statusW
      (by intro tmo i j s o l; exact ⟨rfl, rfl⟩)
      (by
        intro p hp a
        have hp1 : p = producerW := by simpa using hp
        subst hp1
        exact ⟨rfl, by simp [producerW], Or.inl rfl⟩)
  refine ⟨r, hr, hpr, ?_⟩
  rw [hdev]
  rfl

set_option maxRecDepth 8192 in
/-- Witness for C6 at a concrete input. -/
theorem Scan_scoped_timeout_restored_witness :
    ∃ r : ScanReport,
      Scan busAlwaysOk [] handlerW statusW = some r ∧
      r.handler.Timeout = handlerW.Timeout ∧ ∀ pr ∈ r.probes, pr.2 = 50 :=
  ⟨_, rfl, Scan_scoped_timeout_restored busAlwaysOk [] handlerW statusW _ rfl⟩

/-- Witness for C7 at concrete inputs: both fatal validations, the two
dispatch directions, and an error returned as-is. -/
theorem query_validates_and_dispatches_witness :
    (query busAlwaysOk handlerW statusW snipLen0).2.2 = QueryOut.fatal ∧
    (query busAlwaysOk handlerW statusW snipFC9).2.2 = QueryOut.fatal ∧
    (query busAlwaysOk handlerW statusW snipW).2.2 = QueryOut.ok [0, 0, 0, 0] ∧
    (query busAlwaysErr handlerW statusW snipH).2.2 = QueryOut.err := by
  refine ⟨(query_validates_and_dispatches busAlwaysOk handlerW statusW snipLen0).1 rfl,
          (query_validates_and_dispatches busAlwaysOk handlerW statusW snipFC9).2.1
            (by decide) (by decide), ?_, ?_⟩
  · have := (query_validates_and_dispatches busAlwaysOk handlerW statusW snipW).2.2.1
      (by decide) rfl
    rw [this]
    rfl
  · have := (query_validates_and_dispatches busAlwaysErr handlerW statusW snipH).2.2.2
      (by decide) rfl
    rw [this]
    rfl

/-- Witness for C9 at concrete inputs. -/
theorem decode_total_and_frame_witness :
    (RTU32ToFloat64 [64, 80, 0, 0]).isSome ∧
    (rtuScaledInt16ToFloat64 [4, 210] 10).isSome ∧
    RTU32ToFloat64 [64, 80, 0, 0] = RTU32ToFloat64 [64, 80, 0, 0, 99] :=
  ⟨((decode_total_and_frame [64, 80, 0, 0] [64, 80, 0, 0] 10).1 (by decide)).1,
   ((decode_total_and_frame [4, 210] [4, 210] 10).2.1 (by decide)).2,
   ((decode_total_and_frame [64, 80, 0, 0] [64, 80, 0, 0, 99] 10).2.2.1 (by decide)).1⟩

/-- Witness for C10 at a concrete input. -/
theorem pollingLoop_first_snip_settles_witness :
    ∃ o : LoopOut,
      processOne busAlwaysOk (initialLoopState handlerW statusW) snipW = some o ∧
      o.events.head? = some (Event.settle 0) ∧
      (attemptTimes o.events).head? = some 100 :=
  pollingLoop_first_snip_settles busAlwaysOk handlerW statusW snipW
    ⟨by decide, Or.inl rfl⟩ (by decide) (by decide)

end Sdm630
